import Mathlib

/-!
Shallow embedding of the attendance core of the Truetime backend
(`backend/app/crud.py` and `backend/app/ingestion.py`).

Modelling conventions:
* `datetime` values are absolute instants measured in whole seconds (`Int`).
  `_normalize_datetime` converts any datetime to UTC without changing the
  instant it denotes, so in this model normalization is the identity and
  `punched_at` is stored already normalized.
* `date` values are day numbers (`Int`); `datetime.combine(d, t)` becomes
  `d * 86400 + t` where `t` is a time of day in seconds.
* Python `//` on numbers is floor division, embedded as `Int.fdiv`.
* Python truthiness of an `Optional[int]` (`if x:`) is false exactly for
  `None` and `0`; of an `Optional[str]` it is false for `None` and `""`.
* SQLAlchemy rows become records in a `Store`; the session identity map is
  modelled by always re-reading an entity from the current `Store` (the
  session factories are built with `expire_on_commit=False`, so mutated
  attributes stay visible after a commit).
-/

namespace Truetime

/-- Python `str.lower` restricted to ASCII letters (the attendance core only
compares against the ASCII prefixes `"in"`/`"out"`). -/
def charToLower (c : Char) : Char :=
  if 'A' ≤ c ∧ c ≤ 'Z' then Char.ofNat (c.toNat + 32) else c

/-- Python `str.lower` on a string, character by character. -/
def pyLower (s : String) : String := ⟨s.data.map charToLower⟩

/-- Python `s.startswith(pre)`. -/
def pyStartsWith (s pre : String) : Bool := pre.data.isPrefixOf s.data

/-- Attendance status literals produced by `list_daily_summaries`. -/
inductive Status where
  | present
  | late
  | absent
  | incomplete
deriving DecidableEq, Repr

/-- `models.Employee` (the fields the attendance core reads). -/
structure Employee where
  id : Nat
  code : String
deriving DecidableEq, Repr

/-- `models.BiometricDevice` (the fields the attendance core reads/writes). -/
structure BiometricDevice where
  id : Nat
  serial_number : String
  last_log_id : Option Int
  last_seen_at : Option Int
  last_sync_at : Option Int
deriving DecidableEq, Repr

/-- `models.AttendanceLog`: one punch event. -/
structure AttendanceLog where
  id : Nat
  punched_at : Int
  direction : String
  raw_payload : String
  external_id : Option Int
  employee_id : Nat
  device_id : Nat
deriving DecidableEq, Repr

/-- `models.Shift`: start/end are times of day in seconds (< 86400 in the
application, though no proof below needs that bound). -/
structure Shift where
  id : Nat
  start_time : Int
  end_time : Int
  grace_minutes : Int
deriving DecidableEq, Repr

/-- `crud._expected_minutes_for_shift`: both datetimes are built on the same
calendar day, and a day is added to the end when `end_time <= start_time`. -/
def expected_minutes_for_shift (s : Shift) : Int :=
  let start_dt : Int := s.start_time
  let end_dt : Int := if s.end_time ≤ s.start_time then s.end_time + 86400 else s.end_time
  Int.fdiv (end_dt - start_dt) 60

/-- Modelled from the spec's words (§4.3): "`expectedMinutes(shift) -> int`:
`(end - start)` in minutes, adding 24h if `end <= start`." Kept separate from
`expected_minutes_for_shift` so that the two can be compared. -/
def expectedMinutesSpec (s : Shift) : Int :=
  if s.end_time ≤ s.start_time then Int.fdiv (s.end_time + 24 * 3600 - s.start_time) 60
  else Int.fdiv (s.end_time - s.start_time) 60

/-- Accumulator of the walk in `crud._calculate_work_minutes`. -/
structure WorkAcc where
  total_minutes : Int
  open_in : Option Int
  first_in : Option Int
  last_out : Option Int
deriving DecidableEq, Repr

/-- One iteration of the `for log in sorted(logs, ...)` loop of
`_calculate_work_minutes`. `direction.lower().startswith("in")` opens a
session, `...startswith("out")` closes one, anything else only records
`last_out`. -/
def workStep (acc : WorkAcc) (log : AttendanceLog) : WorkAcc :=
  let timestamp := log.punched_at
  let direction := pyLower log.direction
  if pyStartsWith direction "in" then
    { acc with
        first_in := some (acc.first_in.getD timestamp),
        open_in := some timestamp }
  else if pyStartsWith direction "out" then
    match acc.open_in with
    | some oin =>
        { acc with
            last_out := some timestamp,
            total_minutes := acc.total_minutes + Int.fdiv (timestamp - oin) 60,
            open_in := none }
    | none => { acc with last_out := some timestamp }
  else
    { acc with last_out := some timestamp }

/-- `sorted(logs, key=lambda item: item.punched_at)`: Python's sort is
stable, and a stable ascending sort is exactly insertion sort with `≤`. -/
def sortLogs (logs : List AttendanceLog) : List AttendanceLog :=
  logs.insertionSort (fun a b => a.punched_at ≤ b.punched_at)

/-- `crud._calculate_work_minutes`. Python returns the 4-tuple
`(total_minutes, first_in or None, last_out, open_in)`; the record holds the
same four components (`first_in or None` is the identity: a datetime is
always truthy). Note that the `last_out` fallback reads `logs[-1]`, the last
element of the *input* list, not of the sorted list. -/
def calculate_work_minutes (logs : List AttendanceLog) : WorkAcc :=
  let acc := (sortLogs logs).foldl workStep ⟨0, none, none, none⟩
  let lastOutDef : Option Int :=
    match acc.last_out with
    | some v => some v
    | none =>
      match logs.getLast? with
      | some log => some log.punched_at
      | none => none
  { acc with last_out := lastOutDef }

/-- `schemas.AttendanceSummary` (the derived per-day record, without the
employee/shift payloads that are only echoed back). -/
structure AttendanceSummary where
  status : Status
  first_in : Option Int
  last_out : Option Int
  total_minutes : Int
  expected_minutes : Option Int
  late_minutes : Option Int
deriving DecidableEq, Repr

/-- The per-employee body of `crud.list_daily_summaries` (lines 385-421):
given the logs of one employee for `target_date` and the resolved shift,
produce the daily summary. Python's `shift.grace_minutes or 0` is the
identity on an `int` column (it only replaces `0` by `0`). -/
def summarize_day (logs : List AttendanceLog) (shift : Option Shift)
    (target_date : Int) : AttendanceSummary :=
  let r := calculate_work_minutes logs
  let total_minutes := r.total_minutes
  let first_in := r.first_in
  let last_out := r.last_out
  let opened := r.open_in
  if logs.isEmpty then
    { status := .absent, first_in := first_in, last_out := last_out,
      total_minutes := total_minutes, expected_minutes := none, late_minutes := none }
  else
    let status0 : Status :=
      if opened.isSome || first_in.isNone || last_out.isNone then .incomplete else .present
    match shift, first_in with
    | some sh, some fi =>
        let expected := expected_minutes_for_shift sh
        let shift_start := target_date * 86400 + sh.start_time
        let grace := sh.grace_minutes * 60
        if shift_start + grace < fi then
          { status := .late, first_in := first_in, last_out := last_out,
            total_minutes := total_minutes, expected_minutes := some expected,
            late_minutes := some (Int.fdiv (fi - shift_start) 60) }
        else
          { status := status0, first_in := first_in, last_out := last_out,
            total_minutes := total_minutes, expected_minutes := some expected,
            late_minutes := some 0 }
    | _, _ =>
        { status := status0, first_in := first_in, last_out := last_out,
          total_minutes := total_minutes, expected_minutes := none, late_minutes := none }

/-- The `crud` exception taxonomy: `CRUDException` is the base class and
`DuplicateError`, `NotFoundError`, `OperationNotAllowed` are its subclasses.
A raised exception is exactly one of these constructors. -/
inductive CRUDError where
  | crudBase (msg : String)
  | duplicate (msg : String)
  | notFound (msg : String)
  | operationNotAllowed (msg : String)
deriving DecidableEq, Repr

/-- Python `isinstance(e, NotFoundError)`. -/
def CRUDError.isNotFoundError : CRUDError → Bool
  | .notFound _ => true
  | _ => false

/-- The relational store that the attendance core reads and writes. -/
structure Store where
  employees : List Employee
  devices : List BiometricDevice
  logs : List AttendanceLog
  next_log_id : Nat
deriving DecidableEq, Repr

/-- `crud.get_employee_by_code` (`scalar_one_or_none` on an unordered query:
first row). -/
def get_employee_by_code (st : Store) (code : String) : Option Employee :=
  st.employees.find? (fun e => e.code == code)

/-- `crud.get_device_by_serial`. -/
def get_device_by_serial (st : Store) (serial : String) : Option BiometricDevice :=
  st.devices.find? (fun d => d.serial_number == serial)

/-- Writing a mutated device row back: the ORM mutation updates the row with
the device's primary key. -/
def updateDevice (st : Store) (d : BiometricDevice) : Store :=
  { st with devices := st.devices.map (fun x => if x.id = d.id then d else x) }

/-- The `last_log_id` advance guard of `crud.record_attendance_log`:
`if payload.external_id and (not device.last_log_id or payload.external_id >
device.last_log_id)`. Python truthiness makes both `None` and `0` falsy. -/
def advanceLastLogId (cur : Option Int) (eid : Option Int) : Option Int :=
  match eid with
  | none => cur
  | some v =>
    if v = 0 then cur
    else
      match cur with
      | none => some v
      | some w => if w = 0 then some v else if w < v then some v else cur

/-- `device.last_seen_at = now; device.last_sync_at = now` together with the
advance guard, as performed on both paths of `record_attendance_log`. -/
def refreshDevice (d : BiometricDevice) (eid : Option Int) (now : Int) : BiometricDevice :=
  { d with
      last_seen_at := some now,
      last_sync_at := some now,
      last_log_id := advanceLastLogId d.last_log_id eid }

/-- `schemas.AttendanceLogCreate`. -/
structure AttendanceLogCreate where
  employee_code : String
  device_serial : String
  punched_at : Int
  direction : String
  raw_payload : String
  external_id : Option Int
deriving DecidableEq, Repr

/-- The duplicate lookup of `record_attendance_log`: performed only when
`payload.external_id is not None`, matching on `(device_id, external_id)`
with `limit(1)`. -/
def findExistingLog (st : Store) (device_id : Nat) (eid : Option Int) : Option AttendanceLog :=
  if eid.isSome then
    st.logs.find? (fun l => l.device_id == device_id && l.external_id == eid)
  else none

/-- The part of `crud.record_attendance_log` after both lookups succeeded. -/
def record_resolved (st : Store) (employee : Employee) (device : BiometricDevice)
    (payload : AttendanceLogCreate) (now : Int) : AttendanceLog × Store :=
  match findExistingLog st device.id payload.external_id with
  | some existing =>
      (existing, updateDevice st (refreshDevice device payload.external_id now))
  | none =>
      let log : AttendanceLog :=
        { id := st.next_log_id, punched_at := payload.punched_at,
          direction := payload.direction, raw_payload := payload.raw_payload,
          external_id := payload.external_id,
          employee_id := employee.id, device_id := device.id }
      let st1 := updateDevice st (refreshDevice device payload.external_id now)
      (log, { st1 with logs := st1.logs ++ [log], next_log_id := st1.next_log_id + 1 })

/-- `crud.record_attendance_log`. Raises the *base* `CRUDException` (not
`NotFoundError`) when the employee code or device serial does not resolve;
otherwise commits one new log, or returns the existing one for a duplicate
`(device, external_id)`, refreshing the device either way. -/
def record_attendance_log (st : Store) (payload : AttendanceLogCreate) (now : Int) :
    Except CRUDError (AttendanceLog × Store) :=
  match get_employee_by_code st payload.employee_code with
  | none => .error (.crudBase "Employee not found")
  | some employee =>
    match get_device_by_serial st payload.device_serial with
    | none => .error (.crudBase "Device not found")
    | some device => .ok (record_resolved st employee device payload now)

/-- One payload dictionary returned by a device client's `fetch_logs`.
Missing keys are `none`; a `timestamp` that is not a `datetime` is also
modelled as `none` (both fail the same guard in `sync_device`). -/
structure RawPayload where
  external_id : Option Int
  employee_code : Option String
  timestamp : Option Int
  direction : Option String
  raw_payload : Option String
deriving DecidableEq, Repr

/-- Loop state of `ingestion.sync_device`: the evolving store, the running
`highest_external_id`, and the accumulated list of persisted/confirmed logs. -/
structure SyncAcc where
  st : Store
  highest : Int
  logs : List AttendanceLog
deriving DecidableEq, Repr

/-- The already-seen filter of `sync_device`: `external_id is not None and
device.last_log_id is not None and external_id <= device.last_log_id`. -/
def isStale (eid : Option Int) (cur : Option Int) : Bool :=
  match eid, cur with
  | some v, some w => v ≤ w
  | _, _ => false

/-- One iteration of the `for payload in payload_list` loop of `sync_device`.
The stale check reads `device.last_log_id` from the live ORM row, which
`record_attendance_log` mutates through the session identity map, so the
device is re-read from the current store at every iteration. -/
def sync_step (serial : String) (now : Int) (acc : SyncAcc) (p : RawPayload) : SyncAcc :=
  let curLast : Option Int :=
    match get_device_by_serial acc.st serial with
    | some d => d.last_log_id
    | none => none
  if isStale p.external_id curLast then acc
  else
    match p.employee_code, p.timestamp with
    | some code, some ts =>
      if code = "" then acc
      else
        let payload : AttendanceLogCreate :=
          { employee_code := code, device_serial := serial, punched_at := ts,
            direction := p.direction.getD "in", raw_payload := p.raw_payload.getD "",
            external_id := p.external_id }
        match record_attendance_log acc.st payload now with
        | .error _ => acc
        | .ok (log, st1) =>
          let highest1 :=
            match p.external_id with
            | some v => if acc.highest < v then v else acc.highest
            | none => acc.highest
          { st := st1, highest := highest1, logs := acc.logs ++ [log] }
    | _, _ => acc

/-- The post-loop device update of `sync_device`: refresh the timestamps and
bump `last_log_id` to the tracked highest when that is truthy and larger
(`if highest_external_id and (device.last_log_id or 0) < highest...`). -/
def sync_finalize (stF : Store) (serial : String) (now : Int) (highest : Int) :
    Store :=
  match get_device_by_serial stF serial with
  | none => stF
  | some d =>
    let d1 := { d with last_sync_at := some now, last_seen_at := some now }
    let d2 :=
      if highest ≠ 0 ∧ d1.last_log_id.getD 0 < highest then
        { d1 with last_log_id := some highest }
      else d1
    updateDevice stF d2

/-- `ingestion.sync_device`, given the already-fetched payload batch (the
abstract `client.fetch_logs()` succeeded; a client failure aborts before any
of this runs). Returns the persisted/confirmed logs and the final store. -/
def sync_device (st : Store) (serial : String) (payloads : List RawPayload)
    (now : Int) : List AttendanceLog × Store :=
  let init : SyncAcc :=
    { st := st,
      highest :=
        match get_device_by_serial st serial with
        | some d => d.last_log_id.getD 0
        | none => 0,
      logs := [] }
  let fin := payloads.foldl (sync_step serial now) init
  (fin.logs, sync_finalize fin.st serial now fin.highest)

/-- `models.EmployeeShiftAssignment`. -/
structure ShiftAssignment where
  id : Nat
  employee_id : Nat
  shift_id : Nat
  effective_from : Int
  effective_to : Option Int
deriving DecidableEq, Repr

/-- The truncation condition of `crud.assign_shift_to_employee`: an existing
assignment of the same employee is truncated when it currently covers the new
`effective_from` (`effective_from <= new_from` and `effective_to is None or
effective_to >= new_from`; the SELECT's filter is subsumed by this check). -/
def coversBool (a : ShiftAssignment) (d : Int) : Bool :=
  decide (a.effective_from ≤ d) &&
    (match a.effective_to with
     | none => true
     | some t => decide (d ≤ t))

/-- The truncation applied to one existing row while assigning from
`eff_from`. -/
def truncateForNew (emp : Nat) (eff_from : Int) (a : ShiftAssignment) :
    ShiftAssignment :=
  if a.employee_id == emp && coversBool a eff_from then
    { a with effective_to := some (eff_from - 1) }
  else a

/-- The ledger mutation of `crud.assign_shift_to_employee` (the employee and
shift have already resolved; a failed lookup raises and leaves the ledger
unchanged): truncate every covering assignment of this employee to
`effective_from - timedelta(days=1)`, then insert the new assignment. -/
def assign_shift (ledger : List ShiftAssignment) (next_id : Nat) (emp shiftId : Nat)
    (eff_from : Int) (eff_to : Option Int) : List ShiftAssignment × Nat :=
  (ledger.map (truncateForNew emp eff_from) ++ [⟨next_id, emp, shiftId, eff_from, eff_to⟩],
   next_id + 1)

/-- The WHERE clause of `crud.get_shift_assignment_for_date`. -/
def matchesForDate (emp : Nat) (d : Int) (a : ShiftAssignment) : Bool :=
  a.employee_id == emp && decide (a.effective_from ≤ d) &&
    (match a.effective_to with
     | none => true
     | some t => decide (d ≤ t))

/-- One comparison step of the `ORDER BY effective_from DESC LIMIT 1`
selection. -/
def pickStep (best : Option ShiftAssignment) (a : ShiftAssignment) :
    Option ShiftAssignment :=
  match best with
  | none => some a
  | some b => if b.effective_from < a.effective_from then some a else some b

/-- `ORDER BY effective_from DESC LIMIT 1` over the matching rows (ties are
broken by whichever row the database returns first; the model keeps the
earliest-inserted row among equal `effective_from`). -/
def pickLatestFrom (candidates : List ShiftAssignment) : Option ShiftAssignment :=
  candidates.foldl pickStep none

/-- `crud.get_shift_assignment_for_date`. -/
def get_shift_assignment_for_date (ledger : List ShiftAssignment) (emp : Nat)
    (d : Int) : Option ShiftAssignment :=
  pickLatestFrom (ledger.filter (matchesForDate emp d))

/-- One `assign` request: shift id, `effective_from`, optional
`effective_to`. -/
structure AssignOp where
  shiftId : Nat
  eff_from : Int
  eff_to : Option Int
deriving DecidableEq, Repr

/-- A sequence of `assign` calls for one employee, starting from a ledger and
an id counter. -/
def applyAssigns (emp : Nat) (start : List ShiftAssignment × Nat) :
    List AssignOp → List ShiftAssignment × Nat
  | [] => start
  | op :: ops =>
      applyAssigns emp (assign_shift start.1 start.2 emp op.shiftId op.eff_from op.eff_to) ops

/-- Two assignments overlap when some date is covered by both. -/
def OverlapAt (a b : ShiftAssignment) (d : Int) : Prop :=
  coversBool a d = true ∧ coversBool b d = true

/-- The Shift Assignment Ledger invariant claimed by the spec: no two
assignments of employee `emp` share a covered date. -/
def NoOverlap (emp : Nat) (ledger : List ShiftAssignment) : Prop :=
  ledger.Pairwise (fun a b =>
    a.employee_id = emp → b.employee_id = emp → ∀ d : Int, ¬ OverlapAt a b d)

/-! Concrete fixtures used by witnesses and counterexamples. Times of day on
day 0: 08:00 = 28800 s, 08:05 = 29100 s, 09:00 = 32400 s, 10:00 = 36000 s,
17:00 = 61200 s. -/

/-- A 08:00-17:00 shift with a 10-minute grace period. -/
def exShift : Shift := ⟨1, 28800, 61200, 10⟩

/-- A lone `in` punch at 09:00. -/
def exLogIn900 : AttendanceLog := ⟨0, 32400, "in", "", none, 1, 1⟩

/-- An `in` punch at 08:05. -/
def exLogIn805 : AttendanceLog := ⟨0, 29100, "in", "", none, 1, 1⟩

/-- An `out` punch at 17:00. -/
def exLogOut1700 : AttendanceLog := ⟨1, 61200, "out", "", none, 1, 1⟩

/-- An `in` punch at 10:00 (listed first in the out-of-order fixture). -/
def exLogIn1000 : AttendanceLog := ⟨0, 36000, "in", "", none, 1, 1⟩

/-- An `in` punch at 09:00 with id 1 (listed second, though earlier). -/
def exLogIn900b : AttendanceLog := ⟨1, 32400, "in", "", none, 1, 1⟩

/-- A store with one employee `E1` and one device `D1` whose high-water mark
is 5. -/
def exStore5 : Store := ⟨[⟨1, "E1"⟩], [⟨1, "D1", some 5, none, none⟩], [], 0⟩

/-- A store with one employee `E1` and one fresh device `D1` (no mark). -/
def exStoreFresh : Store := ⟨[⟨1, "E1"⟩], [⟨1, "D1", none, none, none⟩], [], 0⟩

/-- A well-formed sync payload with the given external id and timestamp. -/
def exPayload (eid : Int) (t : Int) : RawPayload :=
  ⟨some eid, some "E1", some t, some "in", some "raw"⟩

/-- A punch-record request for `E1`/`D1` carrying `external_id = 0`. -/
def exCreateZero : AttendanceLogCreate := ⟨"E1", "D1", 100, "in", "raw", some 0⟩

/-- Running `record_attendance_log` twice with the same payload (the second
call starts from the state the first one committed). -/
def recordTwice (st : Store) (p : AttendanceLogCreate) (now1 now2 : Int) :
    Except CRUDError (AttendanceLog × Store) :=
  match record_attendance_log st p now1 with
  | .ok (_, st1) => record_attendance_log st1 p now2
  | .error e => .error e

/-- The device's `last_log_id` in the state a successful call committed. -/
def devMarkAfter (r : Except CRUDError (AttendanceLog × Store)) (serial : String) :
    Option (Option Int) :=
  match r with
  | .ok (_, st) => (get_device_by_serial st serial).map (fun d => d.last_log_id)
  | .error _ => none

/-! Helper lemmas. -/

theorem pickStep_foldl_mem :
    ∀ (l : List ShiftAssignment) (b : Option ShiftAssignment) (x : ShiftAssignment),
      l.foldl pickStep b = some x → x ∈ l ∨ b = some x := by
  intro l
  induction l with
  | nil => intro b x h; right; exact h
  | cons a t ih =>
    intro b x h
    simp only [List.foldl_cons] at h
    rcases ih _ _ h with hm | hb
    · exact Or.inl (List.mem_cons_of_mem _ hm)
    · cases b with
      | none =>
        simp only [pickStep] at hb
        cases hb
        exact Or.inl (List.mem_cons_self _ _)
      | some c =>
        simp only [pickStep] at hb
        split at hb
        · cases hb
          exact Or.inl (List.mem_cons_self _ _)
        · exact Or.inr hb

theorem get_assignment_matches {ledger : List ShiftAssignment} {emp : Nat} {d : Int}
    {x : ShiftAssignment} (h : get_shift_assignment_for_date ledger emp d = some x) :
    matchesForDate emp d x = true := by
  unfold get_shift_assignment_for_date pickLatestFrom at h
  rcases pickStep_foldl_mem _ _ _ h with hm | hb
  · exact (List.mem_filter.mp hm).2
  · exact Option.noConfusion hb

/-! Claim theorems. -/

/-- Claim C6 (confirmed): for every shift, `_expected_minutes_for_shift`
computes `(end - start)` in minutes, adding 24 hours when `end <= start`; in
particular a 22:00-06:00 shift has 480 expected minutes. -/
theorem claim6_expected_minutes :
    (∀ s : Shift, expected_minutes_for_shift s = expectedMinutesSpec s) ∧
    expected_minutes_for_shift ⟨1, 22 * 3600, 6 * 3600, 0⟩ = 480 := by
  constructor
  · intro s
    unfold expected_minutes_for_shift expectedMinutesSpec
    split <;> norm_num
  · decide

/-- Witness for claim C6 at a concrete morning shift. -/
theorem claim6_witness :
    expected_minutes_for_shift ⟨2, 28800, 61200, 10⟩ =
      expectedMinutesSpec ⟨2, 28800, 61200, 10⟩ :=
  claim6_expected_minutes.1 ⟨2, 28800, 61200, 10⟩

/-- Claim C7 (corrected): `record_attendance_log` fails exactly when the
employee code or the device serial is unresolved, but the exception raised is
the base `CRUDException` (message "Employee not found" or "Device not
found"), not the `NotFoundError` subclass. -/
theorem claim7_fails_iff_unresolved :
    ∀ (st : Store) (p : AttendanceLogCreate) (now : Int),
      ((∃ r, record_attendance_log st p now = .ok r) ↔
        (get_employee_by_code st p.employee_code).isSome = true ∧
        (get_device_by_serial st p.device_serial).isSome = true) ∧
      (∀ e, record_attendance_log st p now = .error e →
        (e = .crudBase "Employee not found" ∨ e = .crudBase "Device not found") ∧
        e.isNotFoundError = false) := by
  intro st p now
  cases hemp : get_employee_by_code st p.employee_code with
  | none =>
    constructor
    · simp [record_attendance_log, hemp]
    · intro e he
      simp only [record_attendance_log, hemp] at he
      cases he
      exact ⟨Or.inl rfl, rfl⟩
  | some emp =>
    cases hdev : get_device_by_serial st p.device_serial with
    | none =>
      constructor
      · simp [record_attendance_log, hemp, hdev]
      · intro e he
        simp only [record_attendance_log, hemp, hdev] at he
        cases he
        exact ⟨Or.inr rfl, rfl⟩
    | some dev =>
      constructor
      · simp [record_attendance_log, hemp, hdev]
      · intro e he
        simp only [record_attendance_log, hemp, hdev] at he
        cases he

/-- Counterexample to claim C7 as stated: against an empty store the lookup
is unresolved, yet the error raised is the base `CRUDException`, not a
`NotFoundError`-class error. -/
theorem claim7_counterexample :
    record_attendance_log ⟨[], [], [], 0⟩ ⟨"E1", "D1", 0, "in", "", none⟩ 0 =
      .error (.crudBase "Employee not found") ∧
    (CRUDError.crudBase "Employee not found").isNotFoundError = false ∧
    CRUDError.crudBase "Employee not found" ≠ CRUDError.notFound "Employee not found" := by
  exact ⟨rfl, rfl, by decide⟩

/-- Witness for claim C7: both directions at concrete stores - a resolved
pair succeeds, an unresolved employee yields the base-class error. -/
theorem claim7_witness :
    (∃ r, record_attendance_log exStoreFresh exCreateZero 7 = .ok r) ∧
    ((CRUDError.crudBase "Employee not found" = .crudBase "Employee not found" ∨
      CRUDError.crudBase "Employee not found" = .crudBase "Device not found") ∧
     (CRUDError.crudBase "Employee not found").isNotFoundError = false) :=
  ⟨(claim7_fails_iff_unresolved exStoreFresh exCreateZero 7).1.mpr ⟨rfl, rfl⟩,
   (claim7_fails_iff_unresolved ⟨[], [], [], 0⟩ ⟨"E1", "D1", 0, "in", "", none⟩ 0).2
     (.crudBase "Employee not found") rfl⟩

/-- Claim C10 (confirmed): re-assigning from the same start date truncates
the covering assignment to `effective_from - 1`, strictly before its own
`effective_from`, and `get_shift_assignment_for_date` then returns it for no
date whatsoever. -/
theorem claim10_same_day_reassign :
    ∀ (ledger : List ShiftAssignment) (nid emp sid : Nat) (f : Int) (t : Option Int)
      (a : ShiftAssignment), a ∈ ledger → a.employee_id = emp →
      coversBool a f = true → a.effective_from = f →
      ({ a with effective_to := some (f - 1) } ∈ (assign_shift ledger nid emp sid f t).1 ∧
       f - 1 < { a with effective_to := some (f - 1) }.effective_from ∧
       (∀ d, matchesForDate emp d { a with effective_to := some (f - 1) } = false) ∧
       (∀ d, get_shift_assignment_for_date (assign_shift ledger nid emp sid f t).1 emp d ≠
          some { a with effective_to := some (f - 1) })) := by
  intro ledger nid emp sid f t a hmem hemp hcov hfrom
  have hmatchfalse : ∀ d, matchesForDate emp d { a with effective_to := some (f - 1) } = false := by
    intro d
    rw [Bool.eq_false_iff]
    intro hm
    simp only [matchesForDate, Bool.and_eq_true, beq_iff_eq, decide_eq_true_eq] at hm
    omega
  refine ⟨?_, by show f - 1 < a.effective_from; omega, hmatchfalse, ?_⟩
  · unfold assign_shift
    apply List.mem_append_left
    have := List.mem_map_of_mem (truncateForNew emp f) hmem
    simpa [truncateForNew, hemp, hcov] using this
  · intro d hget
    have := get_assignment_matches hget
    rw [hmatchfalse d] at this
    exact Bool.noConfusion this

/-- Witness for claim C10: a concrete ledger with one open-ended assignment
starting on day 31, re-assigned from day 31. -/
theorem claim10_witness :
    ((⟨0, 1, 2, 31, some 30⟩ : ShiftAssignment) ∈
      (assign_shift [⟨0, 1, 2, 31, none⟩] 1 1 3 31 none).1) ∧
    get_shift_assignment_for_date (assign_shift [⟨0, 1, 2, 31, none⟩] 1 1 3 31 none).1 1 31 ≠
      some ⟨0, 1, 2, 31, some 30⟩ := by
  have h := claim10_same_day_reassign [⟨0, 1, 2, 31, none⟩] 1 1 3 31 none
    ⟨0, 1, 2, 31, none⟩ (List.mem_singleton.mpr rfl) rfl (by decide) rfl
  exact ⟨by simpa using h.1, by simpa using h.2.2.2 31⟩

/-- Claim C1 (corrected): with at least one punch and an interrupted session
(open `in`, or missing `first_in`/`last_out`), the status is `incomplete`
*unless* a shift is resolved, `first_in` exists, and `first_in` is strictly
later than shift start plus grace, in which case the late rule runs after
the incomplete assignment and overwrites it with `late`. -/
theorem claim1_late_overrides_incomplete :
    ∀ (logs : List AttendanceLog) (shift : Option Shift) (target : Int),
      logs ≠ [] →
      ((calculate_work_minutes logs).open_in.isSome = true ∨
       (calculate_work_minutes logs).first_in = none ∨
       (calculate_work_minutes logs).last_out = none) →
      (summarize_day logs shift target).status =
        (match shift, (calculate_work_minutes logs).first_in with
         | some sh, some fi =>
             if target * 86400 + sh.start_time + sh.grace_minutes * 60 < fi then
               Status.late
             else Status.incomplete
         | _, _ => Status.incomplete) := by
  intro logs shift target hne hinc
  have hempty : logs.isEmpty = false := by
    cases logs with
    | nil => exact absurd rfl hne
    | cons a t => rfl
  cases hsh : shift with
  | none =>
    cases hfi : (calculate_work_minutes logs).first_in with
    | none => simp [summarize_day, hempty, hfi]
    | some fi =>
      rcases hinc with h | h | h
      · simp [summarize_day, hempty, hfi, h]
      · rw [hfi] at h; exact Option.noConfusion h
      · simp [summarize_day, hempty, hfi, h]
  | some sh =>
    cases hfi : (calculate_work_minutes logs).first_in with
    | none => simp [summarize_day, hempty, hfi]
    | some fi =>
      by_cases hl : target * 86400 + sh.start_time + sh.grace_minutes * 60 < fi
      · simp [summarize_day, hempty, hfi, hl]
      · rcases hinc with h | h | h
        · simp [summarize_day, hempty, hfi, hl, h]
        · rw [hfi] at h; exact Option.noConfusion h
        · simp [summarize_day, hempty, hfi, hl, h]

/-- Counterexample to claim C1 as stated: a lone `in` punch at 09:00 leaves
the session open, yet with a resolved 08:00-17:00 shift (grace 10) the
summary status is `late`, not `incomplete`. -/
theorem claim1_counterexample :
    (calculate_work_minutes [exLogIn900]).open_in.isSome = true ∧
    (summarize_day [exLogIn900] (some exShift) 0).status = Status.late ∧
    Status.late ≠ Status.incomplete := by decide

/-- Witness for claim C1 at a concrete open-session input. -/
theorem claim1_witness :
    ([exLogIn900] ≠ [] ∧ (calculate_work_minutes [exLogIn900]).open_in.isSome = true) ∧
    (summarize_day [exLogIn900] (some exShift) 0).status = Status.late :=
  ⟨⟨by decide, by decide⟩,
   Eq.trans
     (claim1_late_overrides_incomplete [exLogIn900] (some exShift) 0 (by decide)
       (Or.inl (by decide)))
     (by decide)⟩

/-- Claim C5 (corrected): with a resolved shift and an existing `first_in`,
the status is `late` exactly when `first_in` is strictly later than shift
start plus grace, with `late_minutes` counted from shift start; otherwise
`late_minutes = 0` and the status is `present` only when the session closed
(no open `in`, `last_out` present) - an open session stays `incomplete`. -/
theorem claim5_grace_strict :
    ∀ (logs : List AttendanceLog) (sh : Shift) (fi target : Int),
      logs ≠ [] →
      (calculate_work_minutes logs).first_in = some fi →
      (((summarize_day logs (some sh) target).status = Status.late ↔
          target * 86400 + sh.start_time + sh.grace_minutes * 60 < fi) ∧
       (summarize_day logs (some sh) target).expected_minutes =
          some (expected_minutes_for_shift sh) ∧
       (target * 86400 + sh.start_time + sh.grace_minutes * 60 < fi →
          (summarize_day logs (some sh) target).late_minutes =
            some (Int.fdiv (fi - (target * 86400 + sh.start_time)) 60)) ∧
       (¬ target * 86400 + sh.start_time + sh.grace_minutes * 60 < fi →
          (summarize_day logs (some sh) target).late_minutes = some 0 ∧
          ((calculate_work_minutes logs).open_in = none →
            (calculate_work_minutes logs).last_out ≠ none →
            (summarize_day logs (some sh) target).status = Status.present))) := by
  intro logs sh fi target hne hfi
  have hempty : logs.isEmpty = false := by
    cases logs with
    | nil => exact absurd rfl hne
    | cons a t => rfl
  simp only [summarize_day, hempty, Bool.false_eq_true, if_false, hfi]
  split
  · next hlt =>
    refine ⟨⟨fun _ => hlt, fun _ => rfl⟩, rfl, fun _ => rfl, fun hn => absurd hlt hn⟩
  · next hge =>
    refine ⟨⟨?_, fun h => absurd h hge⟩, rfl, fun h => absurd h hge, fun _ => ⟨rfl, ?_⟩⟩
    · intro hlate
      exfalso
      split at hlate <;> exact Status.noConfusion hlate
    · intro hopen hlast
      have h1 : (calculate_work_minutes logs).open_in.isSome = false := by
        simp [hopen]
      have h2 : (calculate_work_minutes logs).first_in.isNone = false := by
        simp [hfi]
      have h3 : (calculate_work_minutes logs).last_out.isNone = false := by
        cases hl : (calculate_work_minutes logs).last_out with
        | none => exact absurd hl hlast
        | some v => rfl
      simp [h1, h2, h3]

/-- Counterexample to claim C5 as stated: a lone `in` punch at 08:05 on the
08:00-17:00 shift (grace 10) has a resolved shift and an existing, on-time
`first_in`, yet the status is `incomplete`, not `present`. -/
theorem claim5_counterexample :
    (calculate_work_minutes [exLogIn805]).first_in = some 29100 ∧
    ¬(0 * 86400 + exShift.start_time + exShift.grace_minutes * 60 < 29100) ∧
    (summarize_day [exLogIn805] (some exShift) 0).status = Status.incomplete ∧
    Status.incomplete ≠ Status.present := by decide

/-- Witness for claim C5 at the spec's own scenario `[in@08:05, out@17:00]`
on shift 08:00-17:00 with grace 10. -/
theorem claim5_witness :
    summarize_day [exLogIn805, exLogOut1700] (some exShift) 0 =
      ⟨Status.present, some 29100, some 61200, 535, some 540, some 0⟩ ∧
    (summarize_day [exLogIn805, exLogOut1700] (some exShift) 0).late_minutes = some 0 ∧
    (summarize_day [exLogIn805, exLogOut1700] (some exShift) 0).status = Status.present :=
  ⟨by decide,
   ((claim5_grace_strict [exLogIn805, exLogOut1700] exShift 29100 0 (by decide)
       (by decide)).2.2.2 (by decide)).1,
   ((claim5_grace_strict [exLogIn805, exLogOut1700] exShift 29100 0 (by decide)
       (by decide)).2.2.2 (by decide)).2 (by decide) (by decide)⟩

/-- A punch whose direction is `in`-prefixed does not touch `last_out`. -/
theorem workStep_in_keeps_last_out (acc : WorkAcc) (log : AttendanceLog)
    (h : pyStartsWith (pyLower log.direction) "in" = true) :
    (workStep acc log).last_out = acc.last_out := by
  simp [workStep, h]

/-- Walking any list of `in`-prefixed punches never sets `last_out`. -/
theorem foldl_in_keeps_last_out :
    ∀ (l : List AttendanceLog) (acc : WorkAcc),
      (∀ x ∈ l, pyStartsWith (pyLower x.direction) "in" = true) →
      (l.foldl workStep acc).last_out = acc.last_out := by
  intro l
  induction l with
  | nil => intro acc _; rfl
  | cons a t ih =>
    intro acc hall
    rw [List.foldl_cons, ih _ (fun x hx => hall x (List.mem_cons_of_mem _ hx)),
      workStep_in_keeps_last_out acc a (hall a (List.mem_cons_self _ _))]

/-- Claim C8 (corrected): when every punch is `in`-prefixed, `last_out`
defaults to the timestamp of the *last element of the input list* (Python
reads `logs[-1]` before sorting), which is the chronologically last punch
only when the caller already supplies the list sorted ascending, as
`list_daily_summaries` does. -/
theorem claim8_last_out_default :
    ∀ (logs : List AttendanceLog) (h : logs ≠ []),
      (∀ l ∈ logs, pyStartsWith (pyLower l.direction) "in" = true) →
      (calculate_work_minutes logs).last_out = some ((logs.getLast h).punched_at) := by
  intro logs h hall
  have hperm : ∀ x ∈ sortLogs logs, x ∈ logs := fun x hx =>
    (List.perm_insertionSort _ logs).mem_iff.mp hx
  have hfold : ((sortLogs logs).foldl workStep ⟨0, none, none, none⟩).last_out = none :=
    foldl_in_keeps_last_out _ _ (fun x hx => hall x (hperm x hx))
  simp only [calculate_work_minutes, hfold, List.getLast?_eq_getLast _ h]

/-- Counterexample to claim C8 as stated: two `in` punches supplied out of
order (10:00 then 09:00) default `last_out` to 09:00, the last *input*
element, not to the chronologically last punch 10:00. -/
theorem claim8_counterexample :
    (calculate_work_minutes [exLogIn1000, exLogIn900b]).last_out = some 32400 ∧
    sortLogs [exLogIn1000, exLogIn900b] = [exLogIn900b, exLogIn1000] ∧
    (sortLogs [exLogIn1000, exLogIn900b]).getLast? = some exLogIn1000 ∧
    some (32400 : Int) ≠ some (36000 : Int) := by decide

/-- Witness for claim C8 at the concrete out-of-order all-`in` list. -/
theorem claim8_witness :
    (∀ l ∈ [exLogIn1000, exLogIn900b], pyStartsWith (pyLower l.direction) "in" = true) ∧
    (calculate_work_minutes [exLogIn1000, exLogIn900b]).last_out = some 32400 :=
  ⟨by decide,
   Eq.trans
     (claim8_last_out_default [exLogIn1000, exLogIn900b] (by decide) (by decide))
     (by decide)⟩

/-- Updating a device row changes neither employees nor logs nor the id
counter. -/
theorem updateDevice_frame (st : Store) (d : BiometricDevice) :
    (updateDevice st d).employees = st.employees ∧
    (updateDevice st d).logs = st.logs ∧
    (updateDevice st d).next_log_id = st.next_log_id :=
  ⟨rfl, rfl, rfl⟩

/-- After writing back a mutated copy of the device found for `serial`, the
lookup for `serial` returns the mutated copy. -/
theorem find?_map_update :
    ∀ (l : List BiometricDevice) (serial : String) (d d' : BiometricDevice),
      l.find? (fun x => x.serial_number == serial) = some d →
      d'.id = d.id → d'.serial_number = d.serial_number →
      (l.map (fun x => if x.id = d'.id then d' else x)).find?
        (fun x => x.serial_number == serial) = some d' := by
  intro l serial d d'
  induction l with
  | nil => intro h _ _; exact Option.noConfusion h
  | cons a t ih =>
    intro h hid hser
    simp only [List.find?_cons] at h
    rw [List.map_cons]
    by_cases ha : (a.serial_number == serial) = true
    · simp only [ha] at h
      cases h
      have hd : (d'.serial_number == serial) = true := by rw [hser]; exact ha
      simp [hid.symm, List.find?_cons, hd]
    · have ha1 : (a.serial_number == serial) = false := by simpa using ha
      simp only [ha1] at h
      have hdser := List.find?_some h
      have hd : (d'.serial_number == serial) = true := by rw [hser]; exact hdser
      by_cases haid : a.id = d'.id
      · simp [haid, List.find?_cons, hd]
      · simp only [haid, if_false, List.find?_cons, ha1]
        exact ih h hid hser

/-- `updateDevice` at store level: writing back a mutated copy of the found
device makes the copy the lookup result. -/
theorem get_device_by_serial_update {st : Store} {serial : String}
    {d : BiometricDevice} (d' : BiometricDevice)
    (h : get_device_by_serial st serial = some d)
    (hid : d'.id = d.id) (hser : d'.serial_number = d.serial_number) :
    get_device_by_serial (updateDevice st d') serial = some d' :=
  find?_map_update st.devices serial d d' h hid hser

/-- Employee lookup only depends on the employee table. -/
theorem get_employee_by_code_congr {st1 st2 : Store}
    (h : st1.employees = st2.employees) (c : String) :
    get_employee_by_code st1 c = get_employee_by_code st2 c := by
  unfold get_employee_by_code
  rw [h]

/-- Inversion of a successful `record_attendance_log`: both lookups resolved
and the result is `record_resolved`. -/
theorem record_ok_inversion {st : Store} {p : AttendanceLogCreate} {now : Int}
    {log : AttendanceLog} {st1 : Store}
    (h : record_attendance_log st p now = .ok (log, st1)) :
    ∃ e d, get_employee_by_code st p.employee_code = some e ∧
      get_device_by_serial st p.device_serial = some d ∧
      record_resolved st e d p now = (log, st1) := by
  unfold record_attendance_log at h
  cases hemp : get_employee_by_code st p.employee_code with
  | none => rw [hemp] at h; exact Except.noConfusion h
  | some e =>
    cases hdev : get_device_by_serial st p.device_serial with
    | none => rw [hemp, hdev] at h; exact Except.noConfusion h
    | some d =>
      rw [hemp, hdev] at h
      exact ⟨e, d, rfl, rfl, Except.ok.inj h⟩

/-- Effect of `record_resolved` on the store: employees untouched, the device
refreshed, and either the existing duplicate returned with no new log, or
exactly the new log appended. -/
theorem record_resolved_effect (st : Store) (e : Employee) (d : BiometricDevice)
    (p : AttendanceLogCreate) (now : Int)
    (hdev : get_device_by_serial st p.device_serial = some d) :
    (record_resolved st e d p now).2.employees = st.employees ∧
    get_device_by_serial (record_resolved st e d p now).2 p.device_serial =
      some (refreshDevice d p.external_id now) ∧
    ((∃ ex, findExistingLog st d.id p.external_id = some ex ∧
        (record_resolved st e d p now).1 = ex ∧
        (record_resolved st e d p now).2.logs = st.logs) ∨
     (findExistingLog st d.id p.external_id = none ∧
        (record_resolved st e d p now).2.logs =
          st.logs ++ [(record_resolved st e d p now).1] ∧
        (record_resolved st e d p now).1.external_id = p.external_id ∧
        (record_resolved st e d p now).1.device_id = d.id)) := by
  have hupd : get_device_by_serial (updateDevice st (refreshDevice d p.external_id now))
      p.device_serial = some (refreshDevice d p.external_id now) :=
    get_device_by_serial_update _ hdev rfl rfl
  cases hdup : findExistingLog st d.id p.external_id with
  | some ex =>
    simp only [record_resolved, hdup]
    refine ⟨rfl, hupd, Or.inl ⟨ex, ?_, ?_, ?_⟩⟩ <;> first | rfl | trivial
  | none =>
    simp only [record_resolved, hdup]
    refine ⟨rfl, hupd, Or.inr ⟨?_, ?_, ?_, ?_⟩⟩ <;> first | rfl | trivial

/-- Claim C9 (confirmed): with `external_id = 0` the duplicate lookup is
still performed (the key is not `None`), the device's timestamps are
refreshed, but `last_log_id` is left unchanged on both the duplicate-return
path and the new-event path, because the advance guard tests Python
truthiness and `0` is falsy. -/
theorem claim9_zero_external_id :
    ∀ (st : Store) (p : AttendanceLogCreate) (now : Int) (e : Employee)
      (d : BiometricDevice),
      p.external_id = some 0 →
      get_employee_by_code st p.employee_code = some e →
      get_device_by_serial st p.device_serial = some d →
      ∃ (log : AttendanceLog) (st1 : Store) (d1 : BiometricDevice),
        record_attendance_log st p now = .ok (log, st1) ∧
        get_device_by_serial st1 p.device_serial = some d1 ∧
        d1.last_log_id = d.last_log_id ∧
        d1.last_seen_at = some now ∧ d1.last_sync_at = some now ∧
        ((∃ ex, findExistingLog st d.id (some 0) = some ex ∧ log = ex ∧
            st1.logs = st.logs) ∨
         (findExistingLog st d.id (some 0) = none ∧ st1.logs = st.logs ++ [log])) := by
  intro st p now e d heid hemp hdev
  obtain ⟨hemp1, hdev1, hcases⟩ := record_resolved_effect st e d p now hdev
  refine ⟨(record_resolved st e d p now).1, (record_resolved st e d p now).2,
    refreshDevice d p.external_id now, ?_, hdev1, ?_, rfl, rfl, ?_⟩
  · unfold record_attendance_log
    rw [hemp, hdev]
  · simp [refreshDevice, advanceLastLogId, heid]
  · rw [heid] at hcases
    rcases hcases with ⟨ex, h1, h2, h3⟩ | ⟨h1, h2, _, _⟩
    · exact Or.inl ⟨ex, h1, h2, h3⟩
    · exact Or.inr ⟨h1, h2⟩

/-- Witness for claim C9: recording `external_id = 0` against a fresh
device leaves `last_log_id` at `none` while refreshing the timestamps. -/
theorem claim9_witness :
    ∃ (log : AttendanceLog) (st1 : Store) (d1 : BiometricDevice),
      record_attendance_log exStoreFresh exCreateZero 50 = .ok (log, st1) ∧
      get_device_by_serial st1 exCreateZero.device_serial = some d1 ∧
      d1.last_log_id = (⟨1, "D1", none, none, none⟩ : BiometricDevice).last_log_id ∧
      d1.last_seen_at = some 50 ∧ d1.last_sync_at = some 50 ∧
      ((∃ ex, findExistingLog exStoreFresh (1 : Nat) (some 0) = some ex ∧ log = ex ∧
          st1.logs = exStoreFresh.logs) ∨
       (findExistingLog exStoreFresh (1 : Nat) (some 0) = none ∧
          st1.logs = exStoreFresh.logs ++ [log])) :=
  claim9_zero_external_id exStoreFresh exCreateZero 50 ⟨1, "E1"⟩
    ⟨1, "D1", none, none, none⟩ rfl rfl rfl

/-- Behaviour of the advance guard on a present external id: `0` never
advances; a nonzero id advances over a null mark, a zero mark, or any
strictly smaller mark; a nonzero mark at least as large stays. -/
theorem advanceLastLogId_spec (cur : Option Int) (v : Int) :
    (v = 0 → advanceLastLogId cur (some v) = cur) ∧
    (v ≠ 0 → (cur = none ∨ cur = some 0 ∨ (∃ w, cur = some w ∧ w < v)) →
      advanceLastLogId cur (some v) = some v) ∧
    (∀ w, cur = some w → w ≠ 0 → v ≤ w → advanceLastLogId cur (some v) = some w) := by
  refine ⟨?_, ?_, ?_⟩
  · intro h
    simp [advanceLastLogId, h]
  · intro hv h
    rcases h with h | h | ⟨w, hw, hlt⟩
    · simp [advanceLastLogId, hv, h]
    · simp [advanceLastLogId, hv, h]
    · subst hw
      by_cases hw0 : w = 0
      · simp [advanceLastLogId, hv, hw0]
      · simp [advanceLastLogId, hv, hw0, hlt]
  · intro w hw hw0 hle
    subst hw
    simp [advanceLastLogId, hw0, Int.not_lt.mpr hle]

/-- Claim C2 (corrected): recording the same `(device, externalId)` twice
yields exactly one stored event; the second call creates no record, returns
the first event unchanged and refreshes `last_seen_at`/`last_sync_at`, and it
advances `last_log_id` when the id is *nonzero* and exceeds the mark (a
truthiness test: id `0` never advances the mark, see claim C9). -/
theorem claim2_idempotent_retry :
    ∀ (st : Store) (p : AttendanceLogCreate) (now1 now2 v : Int)
      (d : BiometricDevice) (log1 : AttendanceLog) (st1 : Store),
      p.external_id = some v →
      get_device_by_serial st p.device_serial = some d →
      (∀ l ∈ st.logs, ¬(l.device_id = d.id ∧ l.external_id = some v)) →
      record_attendance_log st p now1 = .ok (log1, st1) →
      ∃ (st2 : Store) (d1 d2 : BiometricDevice),
        record_attendance_log st1 p now2 = .ok (log1, st2) ∧
        st2.logs = st1.logs ∧
        (st1.logs.filter (fun l => l.device_id == d.id && l.external_id == some v)).length
          = 1 ∧
        get_device_by_serial st1 p.device_serial = some d1 ∧
        get_device_by_serial st2 p.device_serial = some d2 ∧
        d2.last_seen_at = some now2 ∧ d2.last_sync_at = some now2 ∧
        (v = 0 → d2.last_log_id = d1.last_log_id) ∧
        (v ≠ 0 → (d1.last_log_id = none ∨ d1.last_log_id = some 0 ∨
            (∃ w, d1.last_log_id = some w ∧ w < v)) → d2.last_log_id = some v) ∧
        (∀ w, d1.last_log_id = some w → w ≠ 0 → v ≤ w → d2.last_log_id = some w) := by
  intro st p now1 now2 v d log1 st1 heid hdev hnew hrec
  obtain ⟨e, d0, hemp, hdev0, hres⟩ := record_ok_inversion hrec
  rw [hdev] at hdev0
  cases hdev0
  obtain ⟨hemp1, hdev1, hcases⟩ := record_resolved_effect st e d p now1 hdev
  rw [hres] at hemp1 hdev1 hcases
  have hpred : ∀ l ∈ st.logs,
      ¬((fun l => l.device_id == d.id && l.external_id == some v) l = true) := by
    intro l hl hmatch
    simp only [Bool.and_eq_true, beq_iff_eq] at hmatch
    exact hnew l hl ⟨hmatch.1, hmatch.2⟩
  have hnone : findExistingLog st d.id p.external_id = none := by
    unfold findExistingLog
    rw [heid]
    simp only [Option.isSome_some, if_true]
    rw [List.find?_eq_none]
    exact hpred
  rcases hcases with ⟨ex, hx, _, _⟩ | ⟨_, hlogs1, hlogeid, hlogdev⟩
  · rw [hnone] at hx; exact Option.noConfusion hx
  · -- the first call appended log1
    simp only at hlogs1 hlogeid hlogdev
    -- second call: employee and device lookups against st1
    have hemp2 : get_employee_by_code st1 p.employee_code = some e := by
      rw [get_employee_by_code_congr hemp1, hemp]
    set d1 := refreshDevice d p.external_id now1 with hd1def
    have hdup2 : findExistingLog st1 d1.id p.external_id = some log1 := by
      unfold findExistingLog
      rw [heid]
      simp only [Option.isSome_some, if_true]
      have hid1 : d1.id = d.id := rfl
      rw [hlogs1, List.find?_append]
      simp only [hid1]
      rw [List.find?_eq_none.mpr hpred]
      have hhead : (log1.device_id == d.id && log1.external_id == some v) = true := by
        simp [hlogdev, heid ▸ hlogeid]
      simp [List.find?_cons, hhead]
    have hres2 := record_resolved_effect st1 e d1 p now2 hdev1
    rcases hres2 with ⟨hemp3, hdev3, hcases2⟩
    rcases hcases2 with ⟨ex2, hx2, hretlog, hlogs2⟩ | ⟨hx2, _, _, _⟩
    · -- duplicate path, as expected
      rw [hdup2] at hx2
      cases hx2
      refine ⟨(record_resolved st1 e d1 p now2).2, d1, refreshDevice d1 p.external_id now2,
        ?_, hlogs2, ?_, hdev1, hdev3, rfl, rfl, ?_, ?_, ?_⟩
      · unfold record_attendance_log
        rw [hemp2, hdev1]
        rw [← hretlog]
      · rw [hlogs1]
        rw [List.filter_append, List.filter_eq_nil_iff.mpr hpred]
        have : (log1.device_id == d.id && log1.external_id == some v) = true := by
          simp [hlogdev, heid ▸ hlogeid]
        simp [this]
      · intro hv0
        show (refreshDevice d1 p.external_id now2).last_log_id = d1.last_log_id
        rw [heid]
        exact (advanceLastLogId_spec d1.last_log_id v).1 hv0
      · intro hv0 hexceeds
        show (refreshDevice d1 p.external_id now2).last_log_id = some v
        rw [heid]
        exact (advanceLastLogId_spec d1.last_log_id v).2.1 hv0 hexceeds
      · intro w hw hw0 hle
        show (refreshDevice d1 p.external_id now2).last_log_id = some w
        rw [heid]
        exact (advanceLastLogId_spec d1.last_log_id v).2.2 w hw hw0 hle
    · rw [hdup2] at hx2; exact Option.noConfusion hx2

/-- A punch-record request for `E1`/`D1` with `external_id = 9`. -/
def exPayload9 : AttendanceLogCreate := ⟨"E1", "D1", 100, "in", "raw", some 9⟩

/-- The log that recording `exPayload9` creates. -/
def exLogNine : AttendanceLog := ⟨0, 100, "in", "raw", some 9, 1, 1⟩

/-- The store committed by recording `exPayload9` against `exStore5` at time
3. -/
def exStoreAfter9 : Store :=
  ⟨[⟨1, "E1"⟩], [⟨1, "D1", some 9, some 3, some 3⟩], [exLogNine], 1⟩

/-- Counterexample to claim C2 as stated: recording `external_id = 0` twice
against a fresh device (no id ingested yet, `last_log_id` null) leaves
`last_log_id` at `none` after both calls, although id 0 exceeds the empty
high-water mark ("largest external sequence id successfully ingested"), so
the claimed "advancing last_log_id if externalId exceeds it" fails. -/
theorem claim2_counterexample :
    devMarkAfter (recordTwice exStoreFresh exCreateZero 50 60) "D1" = some none ∧
    devMarkAfter (record_attendance_log exStoreFresh exCreateZero 50) "D1" = some none ∧
    (some none : Option (Option Int)) ≠ some (some 0) := by decide

/-- Witness for claim C2 at a concrete retry of `external_id = 9` over a
mark of 5. -/
theorem claim2_witness :
    ∃ (st2 : Store) (d1 d2 : BiometricDevice),
      record_attendance_log exStoreAfter9 exPayload9 4 = .ok (exLogNine, st2) ∧
      st2.logs = exStoreAfter9.logs ∧
      (exStoreAfter9.logs.filter
        (fun l => l.device_id == (1 : Nat) && l.external_id == some 9)).length = 1 ∧
      get_device_by_serial exStoreAfter9 exPayload9.device_serial = some d1 ∧
      get_device_by_serial st2 exPayload9.device_serial = some d2 ∧
      d2.last_seen_at = some 4 ∧ d2.last_sync_at = some 4 ∧
      ((9 : Int) = 0 → d2.last_log_id = d1.last_log_id) ∧
      ((9 : Int) ≠ 0 → (d1.last_log_id = none ∨ d1.last_log_id = some 0 ∨
          (∃ w, d1.last_log_id = some w ∧ w < 9)) → d2.last_log_id = some 9) ∧
      (∀ w, d1.last_log_id = some w → w ≠ 0 → (9 : Int) ≤ w →
        d2.last_log_id = some w) :=
  claim2_idempotent_retry exStore5 exPayload9 3 4 9 ⟨1, "D1", some 5, none, none⟩
    exLogNine exStoreAfter9 rfl (by decide) (by simp [exStore5]) (by rfl)

/-- Truncation keeps identity, owner, start date and shift. -/
theorem truncateForNew_fields (emp : Nat) (f : Int) (a : ShiftAssignment) :
    (truncateForNew emp f a).employee_id = a.employee_id ∧
    (truncateForNew emp f a).effective_from = a.effective_from := by
  unfold truncateForNew
  split <;> exact ⟨rfl, rfl⟩

/-- Truncation only shrinks the covered date range. -/
theorem truncateForNew_covers_subset (emp : Nat) (f : Int) (a : ShiftAssignment)
    (d : Int) (h : coversBool (truncateForNew emp f a) d = true) :
    coversBool a d = true := by
  unfold truncateForNew at h
  split at h
  · next hcond =>
    simp only [Bool.and_eq_true, beq_iff_eq] at hcond
    simp only [coversBool, Bool.and_eq_true, decide_eq_true_eq] at h hcond ⊢
    refine ⟨h.1, ?_⟩
    cases hto : a.effective_to with
    | none => simp
    | some u =>
      rw [hto] at hcond
      simp only [decide_eq_true_eq] at hcond ⊢
      have hfu : f ≤ u := hcond.2.2
      have : d ≤ f - 1 := by simpa using h.2
      omega
  · exact h

/-- After truncating for a new start `f`, every row of this employee that
started no later than `f` covers only dates strictly before `f`. -/
theorem truncateForNew_covers_lt (emp : Nat) (f : Int) (a : ShiftAssignment)
    (hemp : a.employee_id = emp) (hfrom : a.effective_from ≤ f)
    (d : Int) (h : coversBool (truncateForNew emp f a) d = true) : d < f := by
  unfold truncateForNew at h
  split at h
  · simp only [coversBool, Bool.and_eq_true, decide_eq_true_eq] at h
    have : d ≤ f - 1 := by simpa using h.2
    omega
  · next hcond =>
    simp only [Bool.and_eq_true, beq_iff_eq, not_and_or] at hcond
    rcases hcond with hc | hc
    · exact absurd hemp hc
    · simp only [coversBool, Bool.and_eq_true, decide_eq_true_eq] at h hc
      rw [not_and_or] at hc
      rcases hc with hc | hc
      · exact absurd hfrom (by simpa using hc)
      · cases hto : a.effective_to with
        | none => rw [hto] at hc; simp at hc
        | some u =>
          rw [hto] at hc h
          simp only [decide_eq_true_eq] at hc h
          have : ¬ f ≤ u := by simpa using hc
          have := h.2
          omega

/-- One `assign` call preserves the C4 induction invariant, provided the new
start date is not earlier than any existing one. -/
theorem assign_shift_invariant (ledger : List ShiftAssignment) (nid emp sid : Nat)
    (f : Int) (t : Option Int)
    (hemp : ∀ a ∈ ledger, a.employee_id = emp)
    (hbound : ∀ a ∈ ledger, a.effective_from ≤ f)
    (hno : NoOverlap emp ledger) :
    (∀ a ∈ (assign_shift ledger nid emp sid f t).1, a.employee_id = emp) ∧
    (∀ a ∈ (assign_shift ledger nid emp sid f t).1, a.effective_from ≤ f) ∧
    NoOverlap emp (assign_shift ledger nid emp sid f t).1 := by
  refine ⟨?_, ?_, ?_⟩
  · intro a ha
    rcases List.mem_append.mp ha with hm | hm
    · obtain ⟨b, hb, hab⟩ := List.mem_map.mp hm
      rw [← hab, (truncateForNew_fields emp f b).1]
      exact hemp b hb
    · rw [List.mem_singleton.mp hm]
  · intro a ha
    rcases List.mem_append.mp ha with hm | hm
    · obtain ⟨b, hb, hab⟩ := List.mem_map.mp hm
      rw [← hab, (truncateForNew_fields emp f b).2]
      exact hbound b hb
    · rw [List.mem_singleton.mp hm]
  · unfold NoOverlap
    simp only [assign_shift]
    rw [List.pairwise_append]
    refine ⟨?_, List.pairwise_singleton _ _, ?_⟩
    · refine List.Pairwise.map (truncateForNew emp f) ?_ hno
      intro a b hR hea heb d hov
      refine hR ?_ ?_ d ⟨?_, ?_⟩
      · rw [← (truncateForNew_fields emp f a).1]; exact hea
      · rw [← (truncateForNew_fields emp f b).1]; exact heb
      · exact truncateForNew_covers_subset emp f a d hov.1
      · exact truncateForNew_covers_subset emp f b d hov.2
    · intro a ha b hb _ _ d hov
      obtain ⟨c, hc, hac⟩ := List.mem_map.mp ha
      have hd1 : d < f := by
        refine truncateForNew_covers_lt emp f c (hemp c hc) (hbound c hc) d ?_
        rw [hac]
        exact hov.1
      have hd2 : f ≤ d := by
        have hbnew : b = ⟨nid, emp, sid, f, t⟩ := List.mem_singleton.mp hb
        have := hov.2
        rw [hbnew] at this
        simp only [coversBool, Bool.and_eq_true, decide_eq_true_eq] at this
        exact this.1
      omega

/-- Claim C4 (corrected): starting from an empty ledger, a sequence of
`assign` calls whose `effective_from` dates are non-decreasing leaves the
employee's assignments pairwise non-overlapping; without that ordering the
invariant fails (see the counterexample: the truncation only reaches rows
that cover the *new* start date, so a back-dated open-ended assignment
overlaps an existing later one). -/
theorem claim4_ledger_no_overlap :
    ∀ (emp : Nat) (ops : List AssignOp),
      List.Chain' (· ≤ ·) (ops.map AssignOp.eff_from) →
      NoOverlap emp (applyAssigns emp ([], 0) ops).1 := by
  have main : ∀ (ops : List AssignOp) (emp : Nat) (ledger : List ShiftAssignment)
      (nid : Nat) (f : Int),
      (∀ a ∈ ledger, a.employee_id = emp) →
      (∀ a ∈ ledger, a.effective_from ≤ f) →
      NoOverlap emp ledger →
      List.Chain' (· ≤ ·) (f :: ops.map AssignOp.eff_from) →
      NoOverlap emp (applyAssigns emp (ledger, nid) ops).1 := by
    intro ops
    induction ops with
    | nil => intro emp ledger nid f hemp hbound hno _; exact hno
    | cons op t ih =>
      intro emp ledger nid f hemp hbound hno hchain
      have hle : f ≤ op.eff_from := (List.chain'_cons.mp hchain).1
      have hchain2 : List.Chain' (· ≤ ·) (op.eff_from :: t.map AssignOp.eff_from) :=
        (List.chain'_cons.mp hchain).2
      have hbound2 : ∀ a ∈ ledger, a.effective_from ≤ op.eff_from :=
        fun a ha => le_trans (hbound a ha) hle
      obtain ⟨h1, h2, h3⟩ :=
        assign_shift_invariant ledger nid emp op.shiftId op.eff_from op.eff_to
          hemp hbound2 hno
      exact ih emp _ _ op.eff_from h1 h2 h3 hchain2
  intro emp ops hchain
  cases ops with
  | nil => exact List.Pairwise.nil
  | cons op t =>
    exact main (op :: t) emp [] 0 op.eff_from (by simp) (by simp) List.Pairwise.nil
      (List.Chain'.cons (le_refl _) hchain)

/-- Counterexample to claim C4 as stated: an open-ended assignment starting
on day 31 followed by an `assign` back-dated to day 0 leaves both rows
open-ended; day 31 is covered by both, violating the non-overlap invariant. -/
theorem claim4_counterexample :
    (applyAssigns 1 ([], 0) [⟨5, 31, none⟩, ⟨6, 0, none⟩]).1 =
      [⟨0, 1, 5, 31, none⟩, ⟨1, 1, 6, 0, none⟩] ∧
    OverlapAt ⟨0, 1, 5, 31, none⟩ ⟨1, 1, 6, 0, none⟩ 31 ∧
    ¬ NoOverlap 1 (applyAssigns 1 ([], 0) [⟨5, 31, none⟩, ⟨6, 0, none⟩]).1 := by
  refine ⟨by decide, ⟨by decide, by decide⟩, ?_⟩
  intro hno
  rw [(by decide : (applyAssigns 1 ([], 0) [⟨5, 31, none⟩, ⟨6, 0, none⟩]).1 =
    [⟨0, 1, 5, 31, none⟩, ⟨1, 1, 6, 0, none⟩])] at hno
  have h := (List.pairwise_cons.mp hno).1 ⟨1, 1, 6, 0, none⟩ (List.mem_singleton.mpr rfl)
  exact h rfl rfl 31 ⟨by decide, by decide⟩

/-- Witness for claim C4: two assigns in non-decreasing start order. -/
theorem claim4_witness :
    List.Chain' (· ≤ ·) ([⟨5, 0, none⟩, ⟨6, 31, none⟩].map AssignOp.eff_from) ∧
    NoOverlap 1 (applyAssigns 1 ([], 0) [⟨5, 0, none⟩, ⟨6, 31, none⟩]).1 :=
  ⟨by norm_num [List.chain'_cons, List.chain'_singleton],
   claim4_ledger_no_overlap 1 [⟨5, 0, none⟩, ⟨6, 31, none⟩]
     (by norm_num [List.chain'_cons, List.chain'_singleton])⟩

/-- The duplicate key predicate for logs of device `did` with external id
`v`. -/
def logKey (did : Nat) (v : Int) : AttendanceLog → Bool :=
  fun l => l.device_id == did && l.external_id == some v

/-- Induction invariant for the `sync_device` loop: the device row stays
findable with the same identity, its mark never drops below the initial one,
and no log keyed by an already-seen external id (one at most the initial
mark) is ever added. -/
def SyncInv (serial : String) (d : BiometricDevice) (logs0 : List AttendanceLog)
    (acc : SyncAcc) : Prop :=
  (∃ dc, get_device_by_serial acc.st serial = some dc ∧ dc.id = d.id ∧
     dc.serial_number = d.serial_number ∧
     (∀ w, d.last_log_id = some w → ∃ w2, dc.last_log_id = some w2 ∧ w ≤ w2)) ∧
  (∀ v w, d.last_log_id = some w → v ≤ w →
     acc.st.logs.filter (logKey d.id v) = logs0.filter (logKey d.id v))

/-- When a payload passed the staleness filter, the advance guard can only
keep or raise a present mark. -/
theorem advanceLastLogId_ge (cur eid : Option Int)
    (h : isStale eid cur = false) :
    ∀ w2, cur = some w2 → ∃ w3, advanceLastLogId cur eid = some w3 ∧ w2 ≤ w3 := by
  intro w2 hw2
  subst hw2
  cases eid with
  | none => exact ⟨w2, rfl, le_refl _⟩
  | some v =>
    have hvw : ¬ v ≤ w2 := by simpa [isStale] using h
    have hlt : w2 < v := by omega
    by_cases hv0 : v = 0
    · exact ⟨w2, by simp [advanceLastLogId, hv0], le_refl _⟩
    · by_cases hw0 : w2 = 0
      · exact ⟨v, by simp [advanceLastLogId, hv0, hw0], by omega⟩
      · exact ⟨v, by simp [advanceLastLogId, hv0, hw0, hlt], by omega⟩

/-- A payload that passed the staleness filter never carries an external id
at or below a present mark. -/
theorem not_stale_ne (eid : Option Int) (w2 v : Int)
    (h : isStale eid (some w2) = false) (hle : v ≤ w2) : eid ≠ some v := by
  intro heq
  subst heq
  simp only [isStale, decide_eq_false_iff_not, Int.not_le] at h
  omega

/-- One `sync_device` iteration preserves the loop invariant. -/
theorem sync_step_inv (serial : String) (now : Int) (d : BiometricDevice)
    (logs0 : List AttendanceLog) (acc : SyncAcc) (p : RawPayload)
    (hinv : SyncInv serial d logs0 acc) :
    SyncInv serial d logs0 (sync_step serial now acc p) := by
  obtain ⟨⟨dc, hdc, hid, hser, hmark⟩, hcount⟩ := hinv
  unfold sync_step
  simp only [hdc]
  by_cases hstale : isStale p.external_id dc.last_log_id = true
  · simp only [hstale, if_true]
    exact ⟨⟨dc, hdc, hid, hser, hmark⟩, hcount⟩
  · have hstale2 : isStale p.external_id dc.last_log_id = false := by
      simpa using hstale
    simp only [hstale2, Bool.false_eq_true, if_false]
    cases hec : p.employee_code with
    | none => exact ⟨⟨dc, hdc, hid, hser, hmark⟩, hcount⟩
    | some code =>
      cases hts : p.timestamp with
      | none => exact ⟨⟨dc, hdc, hid, hser, hmark⟩, hcount⟩
      | some ts =>
        dsimp only
        by_cases hcode : code = ""
        · simp only [hcode, if_true]
          exact ⟨⟨dc, hdc, hid, hser, hmark⟩, hcount⟩
        · rw [if_neg hcode]
          cases hrec : record_attendance_log acc.st
            { employee_code := code, device_serial := serial, punched_at := ts,
              direction := p.direction.getD "in", raw_payload := p.raw_payload.getD "",
              external_id := p.external_id } now with
          | error e => exact ⟨⟨dc, hdc, hid, hser, hmark⟩, hcount⟩
          | ok res =>
            obtain ⟨log, st1⟩ := res
            obtain ⟨e, d0, hemp0, hdev0, hres0⟩ := record_ok_inversion hrec
            have hdev0x : get_device_by_serial acc.st serial = some d0 := hdev0
            have hd0 : d0 = dc := by
              rw [hdc] at hdev0x
              exact (Option.some.inj hdev0x).symm
            subst hd0
            obtain ⟨hemp1, hdev1, hcases⟩ :=
              record_resolved_effect acc.st e d0 _ now hdev0
            rw [hres0] at hemp1 hdev1 hcases
            have hdev1x : get_device_by_serial st1 serial =
              some (refreshDevice d0 p.external_id now) := hdev1
            constructor
            · refine ⟨refreshDevice d0 p.external_id now, hdev1x, hid, hser, ?_⟩
              intro w hw
              obtain ⟨w2, hw2, hle⟩ := hmark w hw
              obtain ⟨w3, hadv, hle2⟩ :=
                advanceLastLogId_ge d0.last_log_id p.external_id hstale2 w2 hw2
              refine ⟨w3, ?_, le_trans hle hle2⟩
              show advanceLastLogId d0.last_log_id p.external_id = some w3
              exact hadv
            · intro v w hw hvw
              obtain ⟨w2, hw2, hle⟩ := hmark w hw
              have hne : p.external_id ≠ some v := by
                apply not_stale_ne p.external_id w2 v ?_ (le_trans hvw hle)
                rw [← hw2]
                exact hstale2
              rcases hcases with ⟨ex, hx, hlogex, hlogs⟩ | ⟨hx, hlogs, hlogeid, hlogdev⟩
              · show st1.logs.filter (logKey d.id v) = logs0.filter (logKey d.id v)
                rw [hlogs]
                exact hcount v w hw hvw
              · have heidne : (log.external_id == some v) = false := by
                  rw [hlogeid]
                  exact beq_eq_false_iff_ne.mpr hne
                have hkeyfalse : logKey d.id v log = false := by
                  simp [logKey, heidne]
                show st1.logs.filter (logKey d.id v) = logs0.filter (logKey d.id v)
                rw [hlogs, List.filter_append]
                have hnil : [log].filter (logKey d.id v) = [] := by
                  simp [List.filter, hkeyfalse]
                rw [hnil, List.append_nil]
                exact hcount v w hw hvw

/-- The whole `sync_device` loop preserves the invariant. -/
theorem sync_foldl_inv (serial : String) (now : Int) (d : BiometricDevice)
    (logs0 : List AttendanceLog) :
    ∀ (payloads : List RawPayload) (acc : SyncAcc),
      SyncInv serial d logs0 acc →
      SyncInv serial d logs0 (payloads.foldl (sync_step serial now) acc) := by
  intro payloads
  induction payloads with
  | nil => intro acc h; exact h
  | cons p t ih =>
    intro acc h
    exact ih _ (sync_step_inv serial now d logs0 acc p h)

/-- Effect of the post-loop device update: timestamps set to `now`, the mark
kept or raised, logs untouched. -/
theorem sync_finalize_effect (stF : Store) (serial : String) (now highest : Int)
    (dc : BiometricDevice) (hdc : get_device_by_serial stF serial = some dc) :
    ∃ d2, get_device_by_serial (sync_finalize stF serial now highest) serial = some d2 ∧
      d2.id = dc.id ∧
      d2.last_seen_at = some now ∧ d2.last_sync_at = some now ∧
      (∀ w2, dc.last_log_id = some w2 → ∃ w3, d2.last_log_id = some w3 ∧ w2 ≤ w3) ∧
      (sync_finalize stF serial now highest).logs = stF.logs := by
  unfold sync_finalize
  rw [hdc]
  dsimp only
  by_cases hbump : highest ≠ 0 ∧ dc.last_log_id.getD 0 < highest
  · rw [if_pos hbump]
    refine ⟨_, get_device_by_serial_update _ hdc rfl rfl, rfl, rfl, rfl, ?_, rfl⟩
    intro w2 hw2
    refine ⟨highest, rfl, ?_⟩
    have h2 := hbump.2
    rw [hw2] at h2
    simp only [Option.getD_some] at h2
    exact le_of_lt h2
  · rw [if_neg hbump]
    refine ⟨_, get_device_by_serial_update _ hdc rfl rfl, rfl, rfl, rfl, ?_, rfl⟩
    intro w2 hw2
    exact ⟨w2, hw2, le_refl _⟩

/-- Combined effect of one whole `sync_device` call on the device row and on
the already-seen keys of the log table. -/
theorem sync_device_effect :
    ∀ (st : Store) (serial : String) (payloads : List RawPayload) (now : Int)
      (d : BiometricDevice),
      get_device_by_serial st serial = some d →
      ∃ d2, get_device_by_serial (sync_device st serial payloads now).2 serial = some d2 ∧
        d2.last_seen_at = some now ∧ d2.last_sync_at = some now ∧
        (∀ w, d.last_log_id = some w → ∃ w2, d2.last_log_id = some w2 ∧ w ≤ w2) ∧
        (∀ v w, d.last_log_id = some w → v ≤ w →
          (sync_device st serial payloads now).2.logs.filter (logKey d.id v) =
            st.logs.filter (logKey d.id v)) := by
  intro st serial payloads now d hdev
  have hinit : SyncInv serial d st.logs
      { st := st,
        highest :=
          match get_device_by_serial st serial with
          | some dd => dd.last_log_id.getD 0
          | none => 0,
        logs := [] } :=
    ⟨⟨d, hdev, rfl, rfl, fun w hw => ⟨w, hw, le_refl _⟩⟩, fun v w _ _ => rfl⟩
  obtain ⟨⟨dc, hdc, hid, hser, hmark⟩, hcount⟩ :=
    sync_foldl_inv serial now d st.logs payloads _ hinit
  obtain ⟨d2, hd2, hd2id, hd2seen, hd2sync, hd2mark, hd2logs⟩ :=
    sync_finalize_effect _ serial now _ dc hdc
  refine ⟨d2, hd2, hd2seen, hd2sync, ?_, ?_⟩
  · intro w hw
    obtain ⟨w2, hw2, hle⟩ := hmark w hw
    obtain ⟨w3, hw3, hle2⟩ := hd2mark w2 hw2
    exact ⟨w3, hw3, le_trans hle hle2⟩
  · intro v w hw hvw
    show (sync_finalize _ serial now _).logs.filter (logKey d.id v) =
      st.logs.filter (logKey d.id v)
    rw [hd2logs]
    exact hcount v w hw hvw

/-- Claim C3 (corrected): the staleness filter compares each payload against
the device's *current* `last_log_id`, which advances inside the batch as
records are persisted, so an out-of-order batch drops a payload whose id is
below an already-persisted newer one even when it exceeds the initial mark;
the spec scenario (mark 5, batch 3,4,6,7 in order) still persists exactly 6
and 7 and sets the mark to 7; in general the mark never decreases, payloads
at or below the initial mark are never persisted, and the timestamps are
refreshed even when zero payloads were accepted. -/
theorem claim3_sync_reconciler :
    ((sync_device exStore5 "D1"
        [exPayload 3 100, exPayload 4 200, exPayload 6 300, exPayload 7 400] 999).2.logs.map
          (fun l => l.external_id) = [some 6, some 7] ∧
     get_device_by_serial (sync_device exStore5 "D1"
        [exPayload 3 100, exPayload 4 200, exPayload 6 300, exPayload 7 400] 999).2 "D1" =
       some ⟨1, "D1", some 7, some 999, some 999⟩ ∧
     (sync_device exStore5 "D1"
        [exPayload 3 100, exPayload 4 200, exPayload 6 300, exPayload 7 400] 999).1.length = 2) ∧
    (∀ (st : Store) (serial : String) (payloads : List RawPayload) (now : Int)
      (d : BiometricDevice),
      get_device_by_serial st serial = some d →
      ∃ d2, get_device_by_serial (sync_device st serial payloads now).2 serial = some d2 ∧
        d2.last_seen_at = some now ∧ d2.last_sync_at = some now ∧
        (∀ w, d.last_log_id = some w → ∃ w2, d2.last_log_id = some w2 ∧ w ≤ w2) ∧
        (∀ v w, d.last_log_id = some w → v ≤ w →
          (sync_device st serial payloads now).2.logs.filter (logKey d.id v) =
            st.logs.filter (logKey d.id v))) :=
  ⟨by decide, sync_device_effect⟩

/-- Counterexample to claim C3 as stated: device mark 5, fetched batch with
external ids `[7, 6]`. Id 6 exceeds the initial mark 5, yet only 7 is
persisted: recording 7 first advanced the live mark to 7, and 6 was then
filtered as stale. -/
theorem claim3_counterexample :
    (sync_device exStore5 "D1" [exPayload 7 400, exPayload 6 300] 999).2.logs.map
        (fun l => l.external_id) = [some 7] ∧
    ¬((6 : Int) ≤ 5) ∧
    (sync_device exStore5 "D1" [exPayload 7 400, exPayload 6 300] 999).1.length = 1 := by
  decide

/-- Witness for claim C3 at an empty batch: the timestamps are refreshed and
the mark kept even though zero payloads were accepted. -/
theorem claim3_witness :
    ∃ d2, get_device_by_serial (sync_device exStore5 "D1" [] 999).2 "D1" = some d2 ∧
      d2.last_seen_at = some 999 ∧ d2.last_sync_at = some 999 ∧
      (∀ w, (⟨1, "D1", some 5, none, none⟩ : BiometricDevice).last_log_id = some w →
        ∃ w2, d2.last_log_id = some w2 ∧ w ≤ w2) ∧
      (∀ v w, (⟨1, "D1", some 5, none, none⟩ : BiometricDevice).last_log_id = some w →
        v ≤ w →
        (sync_device exStore5 "D1" [] 999).2.logs.filter
            (logKey (⟨1, "D1", some 5, none, none⟩ : BiometricDevice).id v) =
          exStore5.logs.filter
            (logKey (⟨1, "D1", some 5, none, none⟩ : BiometricDevice).id v)) :=
  claim3_sync_reconciler.2 exStore5 "D1" [] 999 ⟨1, "D1", some 5, none, none⟩ rfl

end Truetime
